import Mathlib

/-!
Verification of the core components of the StockQuotes.API repository:
the fixed-window `RateLimiter` (rateLimiter source file) and the TTL
`CacheService` (src/services/cacheService.ts).  JavaScript `Map` objects
are modelled as association lists with unique keys (update = remove old
binding, cons new one); epoch-millisecond times and counters are `Int`
(JS numbers used integrally).  Every operation is a pure function from
the old state to the result and the new state.
-/

namespace StockQuotes

/-! ### Association-list model of a JS `Map` -/

/-- Lookup in an association list, mirroring `Map.get`. -/
def alookup {α : Type} (k : String) : List (String × α) → Option α
  | [] => none
  | (k', v) :: rest => if k' = k then some v else alookup k rest

/-- Remove every binding of key `k`, mirroring `Map.delete`. -/
def aerase {α : Type} (k : String) (m : List (String × α)) : List (String × α) :=
  m.filter fun p => ¬(p.1 = k)

/-- Insert-or-replace a binding, mirroring `Map.set`. -/
def aset {α : Type} (k : String) (v : α) (m : List (String × α)) : List (String × α) :=
  (k, v) :: aerase k m

@[simp] theorem alookup_nil {α : Type} (k : String) : alookup (α := α) k [] = none := rfl

theorem alookup_cons {α : Type} (k k' : String) (v : α) (m : List (String × α)) :
    alookup k ((k', v) :: m) = if k' = k then some v else alookup k m := rfl

theorem alookup_aerase {α : Type} (k k' : String) (m : List (String × α)) :
    alookup k (aerase k' m) = if k' = k then none else alookup k m := by
  induction m with
  | nil => simp [aerase]
  | cons p rest ih =>
    obtain ⟨pk, pv⟩ := p
    by_cases hpk : pk = k' <;> by_cases hk : pk = k
    all_goals simp_all [aerase, List.filter_cons, alookup_cons]
    all_goals tauto

@[simp] theorem alookup_aset_self {α : Type} (k : String) (v : α) (m : List (String × α)) :
    alookup k (aset k v m) = some v := by
  simp [aset, alookup_cons]

theorem alookup_aset_other {α : Type} {k k' : String} (h : k' ≠ k) (v : α)
    (m : List (String × α)) :
    alookup k (aset k' v m) = alookup k m := by
  simp [aset, alookup_cons, h, alookup_aerase]

theorem alookup_mem {α : Type} {k : String} {v : α} {m : List (String × α)}
    (h : alookup k m = some v) : (k, v) ∈ m := by
  induction m with
  | nil => simp [alookup] at h
  | cons p rest ih =>
    obtain ⟨pk, pv⟩ := p
    rw [alookup_cons] at h
    by_cases hk : pk = k
    · subst hk
      simp at h
      subst h
      exact List.mem_cons_self _ _
    · simp [hk] at h
      exact List.mem_cons_of_mem _ (ih h)

theorem mem_aset {α : Type} {p : String × α} {k : String} {v : α} {m : List (String × α)}
    (h : p ∈ aset k v m) : p = (k, v) ∨ p ∈ m := by
  rcases List.mem_cons.mp h with h | h
  · exact Or.inl h
  · exact Or.inr (List.mem_of_mem_filter h)

/-! ### RateLimiter (fixed-window counter) -/

/-- Entry stored per client identifier: `{ count, resetTime }`. -/
structure RateLimitEntry where
  count : Int
  resetTime : Int
  deriving DecidableEq, Repr

/-- Constructor arguments of `RateLimiter`: `windowMs`, `maxRequests`. -/
structure RateLimiterConfig where
  windowMs : Int
  maxRequests : Int
  deriving DecidableEq, Repr

/-- Result object of `isAllowed`: `{ allowed, remaining, resetTime }`. -/
structure RateLimitResult where
  allowed : Bool
  remaining : Int
  resetTime : Int
  deriving DecidableEq, Repr

/-- The `requests` map of a `RateLimiter`. -/
abbrev RequestsMap := List (String × RateLimitEntry)

/-- `RateLimiter.isAllowed(identifier)` at time `now`: returns the result object
and the updated `requests` map.  Mirrors the source line by line: fresh or
expired window creates `{count 1, resetTime now + windowMs}`; a full window
(`count >= maxRequests`) is rejected without mutation; otherwise the count is
incremented. -/
def isAllowed (cfg : RateLimiterConfig) (requests : RequestsMap) (identifier : String)
    (now : Int) : RateLimitResult × RequestsMap :=
  match alookup identifier requests with
  | none =>
      let newEntry : RateLimitEntry := ⟨1, now + cfg.windowMs⟩
      (⟨true, cfg.maxRequests - 1, newEntry.resetTime⟩, aset identifier newEntry requests)
  | some entry =>
      if now > entry.resetTime then
        let newEntry : RateLimitEntry := ⟨1, now + cfg.windowMs⟩
        (⟨true, cfg.maxRequests - 1, newEntry.resetTime⟩, aset identifier newEntry requests)
      else if entry.count ≥ cfg.maxRequests then
        (⟨false, 0, entry.resetTime⟩, requests)
      else
        (⟨true, cfg.maxRequests - (entry.count + 1), entry.resetTime⟩,
          aset identifier ⟨entry.count + 1, entry.resetTime⟩ requests)

/-- `RateLimiter.cleanup()` at time `now`: deletes every entry whose window has
elapsed (`now > entry.resetTime`). -/
def cleanup (requests : RequestsMap) (now : Int) : RequestsMap :=
  requests.filter fun p => ¬(now > p.2.resetTime)

/-- An externally triggerable operation on a `RateLimiter`. -/
inductive RLOp where
  | call (identifier : String) (now : Int)
  | sweep (now : Int)
  deriving Repr

/-- One step of the rate limiter state machine. -/
def rlStep (cfg : RateLimiterConfig) (st : RequestsMap) : RLOp → RequestsMap
  | RLOp.call identifier now => (isAllowed cfg st identifier now).2
  | RLOp.sweep now => cleanup st now

/-- State reached from the empty map after a sequence of operations. -/
def runOps (cfg : RateLimiterConfig) (ops : List RLOp) : RequestsMap :=
  ops.foldl (rlStep cfg) []

/-- State of the `requests` map after the first `i` calls of a single-identifier
call sequence starting from the empty map; call `j` (0-based) happens at time
`τ j`. -/
def callSeq (cfg : RateLimiterConfig) (identifier : String) (τ : Nat → Int) :
    Nat → RequestsMap
  | 0 => []
  | i + 1 => (isAllowed cfg (callSeq cfg identifier τ i) identifier (τ i)).2

/-- Result returned by the `(i+1)`-th call (0-based index `i`) of the
single-identifier call sequence. -/
def callResult (cfg : RateLimiterConfig) (identifier : String) (τ : Nat → Int)
    (i : Nat) : RateLimitResult :=
  (isAllowed cfg (callSeq cfg identifier τ i) identifier (τ i)).1

/-- Run a list of `(identifier, now)` calls through `isAllowed`, collecting each
call's result tagged with its identifier. -/
def runTrace (cfg : RateLimiterConfig) (st : RequestsMap) :
    List (String × Int) → List (String × RateLimitResult)
  | [] => []
  | (identifier, now) :: rest =>
      (identifier, (isAllowed cfg st identifier now).1) ::
        runTrace cfg (isAllowed cfg st identifier now).2 rest

/-! ### CacheService (TTL cache with optional disk persistence) -/

/-- Configuration of `CacheService`, read from the environment at construction. -/
structure CacheConfig where
  ttlMs : Int
  enabled : Bool
  persistenceEnabled : Bool
  deriving DecidableEq, Repr

/-- Cached entry: `{ data, timestamp }` (creation time, epoch ms). -/
structure CacheEntry (V : Type) where
  data : V
  timestamp : Int
  deriving DecidableEq, Repr

/-- State of a `CacheService`: the in-memory map plus the `.json` files on
disk, keyed by sanitized file name. -/
structure CacheState (V : Type) where
  cache : List (String × CacheEntry V)
  disk : List (String × CacheEntry V)
  deriving DecidableEq, Repr

/-- Key sanitization of `getCacheFilePath`: replace `:` and `|` with `-`, then
every character outside `[A-Za-z0-9._-]` with `_`. -/
def sanitizeKey (key : String) : String :=
  String.mk ((key.data.map fun c => if c = ':' ∨ c = '|' then '-' else c).map
    fun c => if c.isAlphanum ∨ c = '.' ∨ c = '_' ∨ c = '-' then c else '_')

/-- `isEntryExpired`: `now > entry.timestamp + ttlMs`. -/
def isEntryExpired {V : Type} (cfg : CacheConfig) (now : Int) (entry : CacheEntry V) : Bool :=
  entry.timestamp + cfg.ttlMs < now

/-- `deleteDiskEntry`: remove the key's `.json` file when persistence is on. -/
def deleteDiskEntry {V : Type} (cfg : CacheConfig) (st : CacheState V) (key : String) :
    CacheState V :=
  if cfg.persistenceEnabled then { st with disk := aerase (sanitizeKey key) st.disk } else st

/-- Private `delete`: drop the key from memory and from disk. -/
def deleteKey {V : Type} (cfg : CacheConfig) (st : CacheState V) (key : String) :
    CacheState V :=
  deleteDiskEntry cfg { st with cache := aerase key st.cache } key

/-- `loadFromDisk`: on a memory miss, read the key's file; a non-expired entry
is promoted into memory and returned, an expired one is deleted from disk. -/
def loadFromDisk {V : Type} (cfg : CacheConfig) (st : CacheState V) (key : String)
    (now : Int) : Option (CacheEntry V) × CacheState V :=
  if cfg.persistenceEnabled then
    match alookup (sanitizeKey key) st.disk with
    | none => (none, st)
    | some entry =>
        if isEntryExpired cfg now entry then
          (none, { st with disk := aerase (sanitizeKey key) st.disk })
        else
          (some entry, { st with cache := aset key entry st.cache })
  else
    (none, st)

/-- `CacheService.get`: in-memory lookup, falling back to disk; an absent or
expired entry yields `none`, an expired one is deleted as a side effect. -/
def CacheService.get {V : Type} (cfg : CacheConfig) (st : CacheState V) (key : String)
    (now : Int) : Option V × CacheState V :=
  if cfg.enabled then
    let loaded :=
      match alookup key st.cache with
      | some entry => (some entry, st)
      | none => loadFromDisk cfg st key now
    match loaded.1 with
    | none => (none, loaded.2)
    | some entry =>
        if isEntryExpired cfg now entry then
          (none, deleteKey cfg loaded.2 key)
        else
          (some entry.data, loaded.2)
  else
    (none, st)

/-- `CacheService.set`: store `{ data, timestamp := now }` in memory and, when
persistence is on, write the same entry to disk; no-op when disabled. -/
def CacheService.set {V : Type} (cfg : CacheConfig) (st : CacheState V) (key : String)
    (data : V) (now : Int) : CacheState V :=
  if cfg.enabled then
    let entry : CacheEntry V := ⟨data, now⟩
    let st1 : CacheState V := { st with cache := aset key entry st.cache }
    if cfg.persistenceEnabled then
      { st1 with disk := aset (sanitizeKey key) entry st1.disk }
    else
      st1
  else
    st

/-- `CacheService.has`: true iff enabled and a non-expired entry is found in
memory or (when persistence is on) on disk; shares `loadFromDisk`'s promotion
side effect. -/
def CacheService.has {V : Type} (cfg : CacheConfig) (st : CacheState V) (key : String)
    (now : Int) : Bool × CacheState V :=
  if cfg.enabled then
    let loaded :=
      match alookup key st.cache with
      | some entry => (some entry, st)
      | none => loadFromDisk cfg st key now
    match loaded.1 with
    | none => (false, loaded.2)
    | some entry => (!(isEntryExpired cfg now entry), loaded.2)
  else
    (false, st)

/-- The entry a `get` or `has` call consults for a key: the in-memory one when
present, otherwise the on-disk one when persistence is enabled. -/
def readEntry {V : Type} (cfg : CacheConfig) (st : CacheState V) (key : String) :
    Option (CacheEntry V) :=
  match alookup key st.cache with
  | some entry => some entry
  | none => if cfg.persistenceEnabled then alookup (sanitizeKey key) st.disk else none

/-! ### Claim C1: functional specification of `isAllowed` -/

/-- C1: for every call `RateLimiter.isAllowed(identifier)` at time `now`: if no
entry exists or `now > entry.resetTime`, a fresh entry `{count 1, resetTime now
+ windowMs}` is stored and `{allowed true, remaining maxRequests - 1, resetTime
now + windowMs}` returned; otherwise, if `entry.count >= maxRequests`, `{allowed
false, remaining 0, resetTime entry.resetTime}` is returned and nothing stored;
otherwise the count is incremented and `{allowed true, remaining maxRequests -
entry.count, resetTime entry.resetTime}` returned. -/
theorem isAllowed_spec (cfg : RateLimiterConfig) (st : RequestsMap) (identifier : String)
    (now : Int) :
    ((alookup identifier st = none ∨
        (∃ e, alookup identifier st = some e ∧ now > e.resetTime)) →
      isAllowed cfg st identifier now =
        (⟨true, cfg.maxRequests - 1, now + cfg.windowMs⟩,
          aset identifier ⟨1, now + cfg.windowMs⟩ st)) ∧
    (∀ e, alookup identifier st = some e → ¬(now > e.resetTime) →
      e.count ≥ cfg.maxRequests →
      isAllowed cfg st identifier now = (⟨false, 0, e.resetTime⟩, st)) ∧
    (∀ e, alookup identifier st = some e → ¬(now > e.resetTime) →
      ¬(e.count ≥ cfg.maxRequests) →
      isAllowed cfg st identifier now =
        (⟨true, cfg.maxRequests - (e.count + 1), e.resetTime⟩,
          aset identifier ⟨e.count + 1, e.resetTime⟩ st)) := by
  refine ⟨?_, ?_, ?_⟩
  · rintro (hnone | ⟨e, hsome, hexp⟩)
    · simp [isAllowed, hnone]
    · simp [isAllowed, hsome, hexp]
  · intro e hsome hexp hfull
    simp [isAllowed, hsome, hexp, hfull]
  · intro e hsome hexp hroom
    simp [isAllowed, hsome, hexp, hroom]

/-- Witness for C1: one concrete instance of each of the three branches, with
`windowMs = 60000` and `maxRequests = 100`. -/
theorem isAllowed_spec_witness :
    isAllowed ⟨60000, 100⟩ [] "1.2.3.4" 0 =
      (⟨true, 99, 60000⟩, aset "1.2.3.4" ⟨1, 60000⟩ []) ∧
    isAllowed ⟨60000, 100⟩ [("1.2.3.4", ⟨100, 60000⟩)] "1.2.3.4" 5 =
      (⟨false, 0, 60000⟩, [("1.2.3.4", ⟨100, 60000⟩)]) ∧
    isAllowed ⟨60000, 100⟩ [("1.2.3.4", ⟨5, 60000⟩)] "1.2.3.4" 7 =
      (⟨true, 94, 60000⟩, aset "1.2.3.4" ⟨6, 60000⟩ [("1.2.3.4", ⟨5, 60000⟩)]) :=
  ⟨(isAllowed_spec ⟨60000, 100⟩ [] "1.2.3.4" 0).1 (Or.inl rfl),
   (isAllowed_spec ⟨60000, 100⟩ [("1.2.3.4", ⟨100, 60000⟩)] "1.2.3.4" 5).2.1
     ⟨100, 60000⟩ rfl (by decide) (by decide),
   (isAllowed_spec ⟨60000, 100⟩ [("1.2.3.4", ⟨5, 60000⟩)] "1.2.3.4" 7).2.2
     ⟨5, 60000⟩ rfl (by decide) (by decide)⟩

/-! ### Claim C7: a rejected call leaves the state unchanged -/

/-- C7: with an existing, unexpired window whose count has reached
`maxRequests`, `isAllowed` returns `allowed = false` and the `requests` map —
in particular the identifier's `count` and `resetTime` — is exactly what it
was before the call. -/
theorem isAllowed_reject_frame (cfg : RateLimiterConfig) (st : RequestsMap)
    (identifier : String) (now : Int) (e : RateLimitEntry)
    (hl : alookup identifier st = some e) (hw : ¬(now > e.resetTime))
    (hc : e.count ≥ cfg.maxRequests) :
    (isAllowed cfg st identifier now).1 = ⟨false, 0, e.resetTime⟩ ∧
    (isAllowed cfg st identifier now).2 = st ∧
    alookup identifier (isAllowed cfg st identifier now).2 = some e := by
  have h : isAllowed cfg st identifier now = (⟨false, 0, e.resetTime⟩, st) := by
    simp [isAllowed, hl, hw, hc]
  exact ⟨by rw [h], by rw [h], by rw [h]; exact hl⟩

/-- Witness for C7 at `maxRequests = 2` with a saturated window. -/
theorem isAllowed_reject_frame_witness :
    (isAllowed ⟨60000, 2⟩ [("1.2.3.4", ⟨2, 60000⟩)] "1.2.3.4" 30).1 = ⟨false, 0, 60000⟩ ∧
    (isAllowed ⟨60000, 2⟩ [("1.2.3.4", ⟨2, 60000⟩)] "1.2.3.4" 30).2 =
      [("1.2.3.4", ⟨2, 60000⟩)] ∧
    alookup "1.2.3.4" (isAllowed ⟨60000, 2⟩ [("1.2.3.4", ⟨2, 60000⟩)] "1.2.3.4" 30).2 =
      some ⟨2, 60000⟩ :=
  isAllowed_reject_frame ⟨60000, 2⟩ [("1.2.3.4", ⟨2, 60000⟩)] "1.2.3.4" 30
    ⟨2, 60000⟩ rfl (by decide) (by decide)

/-! ### Claim C10: `resetTime` is fixed at window creation -/

/-- C10: the call that creates a window — the identifier being absent, or its
previous window having expired — returns and stores `resetTime = now +
windowMs`, and every later call inside the unexpired window returns that same
stored `resetTime` and leaves it unchanged. -/
theorem isAllowed_resetTime_stable (cfg : RateLimiterConfig) (st : RequestsMap)
    (identifier : String) (now : Int) :
    ((alookup identifier st = none ∨
        (∃ e, alookup identifier st = some e ∧ now > e.resetTime)) →
      (isAllowed cfg st identifier now).1.resetTime = now + cfg.windowMs ∧
      ∃ e', alookup identifier (isAllowed cfg st identifier now).2 = some e' ∧
        e'.resetTime = now + cfg.windowMs) ∧
    (∀ e, alookup identifier st = some e → ¬(now > e.resetTime) →
      (isAllowed cfg st identifier now).1.resetTime = e.resetTime ∧
      ∃ e', alookup identifier (isAllowed cfg st identifier now).2 = some e' ∧
        e'.resetTime = e.resetTime) := by
  constructor
  · rintro (hnone | ⟨e, hsome, hexp⟩)
    · refine ⟨by simp [isAllowed, hnone], ⟨1, now + cfg.windowMs⟩, ?_, rfl⟩
      simp [isAllowed, hnone]
    · refine ⟨by simp [isAllowed, hsome, hexp], ⟨1, now + cfg.windowMs⟩, ?_, rfl⟩
      simp [isAllowed, hsome, hexp]
  · intro e hsome hexp
    by_cases hfull : e.count ≥ cfg.maxRequests
    · refine ⟨by simp [isAllowed, hsome, hexp, hfull], e, ?_, rfl⟩
      simp [isAllowed, hsome, hexp, hfull]
    · refine ⟨by simp [isAllowed, hsome, hexp, hfull], ⟨e.count + 1, e.resetTime⟩, ?_, rfl⟩
      simp [isAllowed, hsome, hexp, hfull]

/-- Witness for C10: window creation from an absent identifier at time 0,
window creation by overwriting an expired entry at time 70000, and an in-window
call at time 40, each reporting the window's fixed `resetTime`. -/
theorem isAllowed_resetTime_stable_witness :
    ((isAllowed ⟨60000, 2⟩ [] "a" 0).1.resetTime = 0 + 60000 ∧
      ∃ e', alookup "a" (isAllowed ⟨60000, 2⟩ [] "a" 0).2 = some e' ∧
        e'.resetTime = 0 + 60000) ∧
    ((isAllowed ⟨60000, 2⟩ [("a", ⟨2, 60000⟩)] "a" 70000).1.resetTime = 70000 + 60000 ∧
      ∃ e', alookup "a" (isAllowed ⟨60000, 2⟩ [("a", ⟨2, 60000⟩)] "a" 70000).2 = some e' ∧
        e'.resetTime = 70000 + 60000) ∧
    ((isAllowed ⟨60000, 2⟩ [("a", ⟨1, 60000⟩)] "a" 40).1.resetTime = 60000 ∧
      ∃ e', alookup "a" (isAllowed ⟨60000, 2⟩ [("a", ⟨1, 60000⟩)] "a" 40).2 = some e' ∧
        e'.resetTime = 60000) :=
  ⟨(isAllowed_resetTime_stable ⟨60000, 2⟩ [] "a" 0).1 (Or.inl rfl),
   (isAllowed_resetTime_stable ⟨60000, 2⟩ [("a", ⟨2, 60000⟩)] "a" 70000).1
     (Or.inr ⟨⟨2, 60000⟩, rfl, by decide⟩),
   (isAllowed_resetTime_stable ⟨60000, 2⟩ [("a", ⟨1, 60000⟩)] "a" 40).2
     ⟨1, 60000⟩ rfl (by decide)⟩

/-! ### Claim C9: behaviour at `maxRequests = 0` -/

/-- C9: a fresh-window call is always admitted, whatever `maxRequests`; with
`maxRequests = 0` that admitted call reports `remaining = -1`, and every later
call inside the same window is rejected without changing the state. -/
theorem isAllowed_maxZero (cfg : RateLimiterConfig) (st : RequestsMap)
    (identifier : String) (now : Int) :
    ((alookup identifier st = none ∨
        (∃ e, alookup identifier st = some e ∧ now > e.resetTime)) →
      (isAllowed cfg st identifier now).1.allowed = true ∧
      (isAllowed cfg st identifier now).1.remaining = cfg.maxRequests - 1) ∧
    (cfg.maxRequests = 0 →
      ((alookup identifier st = none ∨
          (∃ e, alookup identifier st = some e ∧ now > e.resetTime)) →
        (isAllowed cfg st identifier now).1.remaining = -1) ∧
      (∀ e, alookup identifier st = some e → ¬(now > e.resetTime) → 0 ≤ e.count →
        (isAllowed cfg st identifier now).1.allowed = false ∧
        (isAllowed cfg st identifier now).2 = st)) := by
  constructor
  · rintro (hnone | ⟨e, hsome, hexp⟩)
    · simp [isAllowed, hnone]
    · simp [isAllowed, hsome, hexp]
  · intro hzero
    constructor
    · rintro (hnone | ⟨e, hsome, hexp⟩)
      · simp [isAllowed, hnone, hzero]
      · simp [isAllowed, hsome, hexp, hzero]
    · intro e hsome hexp hpos
      have hfull : e.count ≥ cfg.maxRequests := hzero ▸ hpos
      constructor
      · simp [isAllowed, hsome, hexp, hfull]
      · simp [isAllowed, hsome, hexp, hfull]

/-- Witness for C9 with `maxRequests = 0`: the first call at time 0 is admitted
with `remaining = -1`; the second call at time 10 is rejected. -/
theorem isAllowed_maxZero_witness :
    ((isAllowed ⟨60000, 0⟩ [] "a" 0).1.allowed = true ∧
      (isAllowed ⟨60000, 0⟩ [] "a" 0).1.remaining = (0 : Int) - 1) ∧
    (isAllowed ⟨60000, 0⟩ [] "a" 0).1.remaining = -1 ∧
    ((isAllowed ⟨60000, 0⟩ [("a", ⟨1, 60000⟩)] "a" 10).1.allowed = false ∧
      (isAllowed ⟨60000, 0⟩ [("a", ⟨1, 60000⟩)] "a" 10).2 = [("a", ⟨1, 60000⟩)]) :=
  ⟨(isAllowed_maxZero ⟨60000, 0⟩ [] "a" 0).1 (Or.inl rfl),
   ((isAllowed_maxZero ⟨60000, 0⟩ [] "a" 0).2 rfl).1 (Or.inl rfl),
   ((isAllowed_maxZero ⟨60000, 0⟩ [("a", ⟨1, 60000⟩)] "a" 10).2 rfl).2
     ⟨1, 60000⟩ rfl (by decide) (by decide)⟩

/-! ### Claim C2: the count bound over reachable states -/

/-- Every binding of the `requests` map has `count ≤ max`. -/
def countBound (max : Int) (st : RequestsMap) : Prop :=
  ∀ p ∈ st, p.2.count ≤ max

theorem countBound_isAllowed (cfg : RateLimiterConfig) (st : RequestsMap)
    (identifier : String) (now : Int) (hmax : 1 ≤ cfg.maxRequests)
    (h : countBound cfg.maxRequests st) :
    countBound cfg.maxRequests (isAllowed cfg st identifier now).2 := by
  unfold isAllowed
  cases hl : alookup identifier st with
  | none =>
    intro p hp
    rcases mem_aset hp with rfl | hp
    · exact hmax
    · exact h p hp
  | some e =>
    by_cases hexp : now > e.resetTime
    · simp only [if_pos hexp]
      intro p hp
      rcases mem_aset hp with rfl | hp
      · exact hmax
      · exact h p hp
    · by_cases hfull : e.count ≥ cfg.maxRequests
      · simpa [hexp, hfull] using h
      · simp only [if_neg hexp, if_neg hfull]
        intro p hp
        rcases mem_aset hp with rfl | hp
        · have : e.count < cfg.maxRequests := lt_of_not_ge hfull
          dsimp only
          omega
        · exact h p hp

theorem countBound_cleanup (max : Int) (st : RequestsMap) (now : Int)
    (h : countBound max st) : countBound max (cleanup st now) :=
  fun p hp => h p (List.mem_of_mem_filter hp)

theorem countBound_runOps (cfg : RateLimiterConfig) (ops : List RLOp)
    (hmax : 1 ≤ cfg.maxRequests) : countBound cfg.maxRequests (runOps cfg ops) := by
  have gen : ∀ (l : List RLOp) (st : RequestsMap), countBound cfg.maxRequests st →
      countBound cfg.maxRequests (l.foldl (rlStep cfg) st) := by
    intro l
    induction l with
    | nil => exact fun st h => h
    | cons op rest ih =>
      intro st h
      refine ih _ ?_
      cases op with
      | call identifier now => exact countBound_isAllowed cfg st identifier now hmax h
      | sweep now => exact countBound_cleanup cfg.maxRequests st now h
  exact gen ops [] (fun p hp => absurd hp (List.not_mem_nil p))

/-- C2 (amended): provided `maxRequests ≥ 1`, in every state reachable from the
empty map by `isAllowed` calls and `cleanup` sweeps every stored entry satisfies
`count ≤ maxRequests`; and — for every configuration — once `now` is past an
identifier's `resetTime`, the next `isAllowed` call for it starts a fresh window
stored with `count = 1`. -/
theorem rateLimiter_count_invariant (cfg : RateLimiterConfig) (ops : List RLOp) :
    (1 ≤ cfg.maxRequests →
      ∀ k e, alookup k (runOps cfg ops) = some e → e.count ≤ cfg.maxRequests) ∧
    (∀ (st : RequestsMap) (identifier : String) (now : Int) (e : RateLimitEntry),
      alookup identifier st = some e → now > e.resetTime →
      alookup identifier (isAllowed cfg st identifier now).2 =
        some ⟨1, now + cfg.windowMs⟩ ∧
      (isAllowed cfg st identifier now).1.allowed = true) := by
  constructor
  · intro hmax k e hke
    exact countBound_runOps cfg ops hmax (k, e) (alookup_mem hke)
  · intro st identifier now e hsome hexp
    constructor
    · simp [isAllowed, hsome, hexp]
    · simp [isAllowed, hsome, hexp]

/-- Witness for C2: at `maxRequests = 2`, after two calls in one window the
stored count is 2 ≤ 2; and even at `maxRequests = 0` a call after the window
has passed re-creates the entry with count 1. -/
theorem rateLimiter_count_invariant_witness :
    RateLimitEntry.count ⟨2, 60000⟩ ≤ (2 : Int) ∧
    (alookup "a" (isAllowed ⟨60000, 0⟩ [("a", ⟨1, 100⟩)] "a" 200).2 =
        some ⟨1, 200 + 60000⟩ ∧
      (isAllowed ⟨60000, 0⟩ [("a", ⟨1, 100⟩)] "a" 200).1.allowed = true) :=
  ⟨(rateLimiter_count_invariant ⟨60000, 2⟩ [RLOp.call "a" 0, RLOp.call "a" 1]).1
      (by decide) "a" ⟨2, 60000⟩ (by decide),
   (rateLimiter_count_invariant ⟨60000, 0⟩ []).2
      [("a", ⟨1, 100⟩)] "a" 200 ⟨1, 100⟩ rfl (by decide)⟩

/-- Counterexample to C2 as stated: with `maxRequests = 0` the very first call
stores an entry whose count 1 exceeds `maxRequests` while its window (ending at
60000) is still current at time 0. -/
theorem rateLimiter_count_invariant_cex :
    alookup "a" (runOps ⟨60000, 0⟩ [RLOp.call "a" 0]) = some ⟨1, 60000⟩ ∧
    ¬((1 : Int) ≤ 0) ∧ (0 : Int) ≤ 60000 :=
  ⟨by decide, by decide, by decide⟩

/-! ### Claim C3: the first N calls of a window are admitted, the (N+1)-th rejected -/

theorem callSeq_state (W : Int) (identifier : String) (τ : Nat → Int) (N : Nat)
    (hτ : ∀ j, τ j ≤ τ 0 + W) :
    ∀ i : Nat, 1 ≤ i → i ≤ N →
      alookup identifier (callSeq ⟨W, (N : Int)⟩ identifier τ i) =
        some ⟨(i : Int), τ 0 + W⟩ := by
  intro i
  induction i with
  | zero => omega
  | succ i ih =>
    intro _ hle
    rcases Nat.eq_zero_or_pos i with hz | hpos
    · subst hz
      simp [callSeq, isAllowed]
    · have hi := ih hpos (Nat.le_of_succ_le hle)
      have hnotexp : ¬(τ i > τ 0 + W) := not_lt.mpr (hτ i)
      have hroom : ¬((i : Int) ≥ (N : Int)) := by
        have : i < N := Nat.lt_of_succ_le hle
        exact not_le.mpr (by exact_mod_cast this)
      show alookup identifier
        (isAllowed ⟨W, (N : Int)⟩ (callSeq ⟨W, (N : Int)⟩ identifier τ i) identifier (τ i)).2 = _
      rw [show ((i + 1 : Nat) : Int) = (i : Int) + 1 by push_cast; ring]
      simp [isAllowed, hi, hnotexp, hroom]

/-- C3 (amended): with `maxRequests = N ≥ 1`, a fresh identifier and every call
inside the first call's window, the `i`-th call (`1 ≤ i ≤ N`) returns
`allowed = true` with `remaining = N - i` (hence strictly decreasing `N-1, …,
0`) and `resetTime` fixed at the first call's `now + windowMs`, and the
`(N+1)`-th call returns `allowed = false` with `remaining = 0`. -/
theorem rl_window_scenario (W : Int) (identifier : String) (τ : Nat → Int) (N : Nat)
    (hN : 1 ≤ N) (hτ : ∀ j, τ j ≤ τ 0 + W) :
    (∀ i : Nat, 1 ≤ i → i ≤ N →
      callResult ⟨W, (N : Int)⟩ identifier τ (i - 1) =
        ⟨true, (N : Int) - (i : Int), τ 0 + W⟩) ∧
    callResult ⟨W, (N : Int)⟩ identifier τ N = ⟨false, 0, τ 0 + W⟩ := by
  constructor
  · intro i h1 hle
    obtain ⟨j, rfl⟩ : ∃ j, i = j + 1 := ⟨i - 1, (Nat.succ_pred_eq_of_pos h1).symm⟩
    simp only [Nat.add_sub_cancel]
    rcases Nat.eq_zero_or_pos j with hz | hpos
    · subst hz
      simp [callResult, callSeq, isAllowed]
    · have hst := callSeq_state W identifier τ N hτ j hpos (by omega)
      have hnotexp : ¬(τ j > τ 0 + W) := not_lt.mpr (hτ j)
      have hroom : ¬((j : Int) ≥ (N : Int)) := by
        have : j < N := by omega
        exact not_le.mpr (by exact_mod_cast this)
      rw [show ((j + 1 : Nat) : Int) = (j : Int) + 1 by push_cast; ring]
      simp [callResult, isAllowed, hst, hnotexp, hroom]
  · have hst := callSeq_state W identifier τ N hτ N hN le_rfl
    have hnotexp : ¬(τ N > τ 0 + W) := not_lt.mpr (hτ N)
    have hfull : ((N : Int) ≥ (N : Int)) := le_rfl
    simp [callResult, isAllowed, hst, hnotexp, hfull]

/-- Witness for C3: the spec's example, `windowMs = 60000`, `maxRequests = 2`,
identifier `"1.2.3.4"`, all three calls at time 0: results are
`{allowed true, remaining 1}`, `{allowed true, remaining 0}`,
`{allowed false, remaining 0}`. -/
theorem rl_window_scenario_witness :
    callResult ⟨60000, ((2 : Nat) : Int)⟩ "1.2.3.4" (fun _ => 0) 0 = ⟨true, 1, 60000⟩ ∧
    callResult ⟨60000, ((2 : Nat) : Int)⟩ "1.2.3.4" (fun _ => 0) 1 = ⟨true, 0, 60000⟩ ∧
    callResult ⟨60000, ((2 : Nat) : Int)⟩ "1.2.3.4" (fun _ => 0) 2 = ⟨false, 0, 60000⟩ :=
  ⟨(rl_window_scenario 60000 "1.2.3.4" (fun _ => 0) 2 (by decide)
      (fun _ => by norm_num)).1 1 (by decide) (by decide),
   (rl_window_scenario 60000 "1.2.3.4" (fun _ => 0) 2 (by decide)
      (fun _ => by norm_num)).1 2 (by decide) (by decide),
   (rl_window_scenario 60000 "1.2.3.4" (fun _ => 0) 2 (by decide)
      (fun _ => by norm_num)).2⟩

/-- Counterexample to C3 as stated: with `maxRequests = N = 0` the `(N+1)`-th
(i.e. first) call is admitted — `allowed = true`, not `false` — because the
fresh-window branch admits unconditionally. -/
theorem rl_window_scenario_cex :
    (callResult ⟨60000, ((0 : Nat) : Int)⟩ "1.2.3.4" (fun _ => 0) 0).allowed = true ∧
    ¬((callResult ⟨60000, ((0 : Nat) : Int)⟩ "1.2.3.4" (fun _ => 0) 0).allowed = false) :=
  ⟨by decide, by decide⟩

/-! ### Claim C8: distinct identifiers do not interfere -/

theorem alookup_isAllowed_other (cfg : RateLimiterConfig) (st : RequestsMap)
    (identifier : String) (now : Int) {k : String} (h : k ≠ identifier) :
    alookup k (isAllowed cfg st identifier now).2 = alookup k st := by
  unfold isAllowed
  cases hl : alookup identifier st with
  | none => simp [alookup_aset_other (Ne.symm h)]
  | some e =>
    by_cases hexp : now > e.resetTime
    · simp [hexp, alookup_aset_other (Ne.symm h)]
    · by_cases hfull : e.count ≥ cfg.maxRequests
      · simp [hexp, hfull]
      · simp [hexp, hfull, alookup_aset_other (Ne.symm h)]

theorem isAllowed_local (cfg : RateLimiterConfig) (identifier : String) (now : Int)
    (st1 st2 : RequestsMap) (h : alookup identifier st1 = alookup identifier st2) :
    (isAllowed cfg st1 identifier now).1 = (isAllowed cfg st2 identifier now).1 ∧
    alookup identifier (isAllowed cfg st1 identifier now).2 =
      alookup identifier (isAllowed cfg st2 identifier now).2 := by
  unfold isAllowed
  rw [h]
  cases hl : alookup identifier st2 with
  | none => simp
  | some e =>
    by_cases hexp : now > e.resetTime
    · simp [hexp]
    · by_cases hfull : e.count ≥ cfg.maxRequests
      · simp [hexp, hfull]
        exact h
      · simp [hexp, hfull]

theorem runTrace_erase (cfg : RateLimiterConfig) (a : String) :
    ∀ (ops : List (String × Int)) (st1 st2 : RequestsMap),
      (∀ k, k ≠ a → alookup k st1 = alookup k st2) →
      runTrace cfg st2 (ops.filter fun p => ¬(p.1 = a)) =
        (runTrace cfg st1 ops).filter fun p => ¬(p.1 = a) := by
  intro ops
  induction ops with
  | nil => intro st1 st2 _; rfl
  | cons p rest ih =>
    obtain ⟨identifier, now⟩ := p
    intro st1 st2 h
    by_cases hid : identifier = a
    · subst hid
      rw [List.filter_cons_of_neg (by simp)]
      simp only [runTrace]
      rw [List.filter_cons_of_neg (by simp)]
      refine ih (isAllowed cfg st1 identifier now).2 st2 (fun k hk => ?_)
      rw [alookup_isAllowed_other cfg st1 identifier now hk, h k hk]
    · obtain ⟨hres, hpost⟩ :=
        isAllowed_local cfg identifier now st1 st2 (h identifier hid)
      rw [List.filter_cons_of_pos (by simp [hid])]
      simp only [runTrace]
      rw [List.filter_cons_of_pos (by simp [hid])]
      rw [hres]
      refine congrArg _ ?_
      refine ih (isAllowed cfg st1 identifier now).2 (isAllowed cfg st2 identifier now).2
        (fun k hk => ?_)
      by_cases hki : k = identifier
      · subst hki
        exact hpost
      · rw [alookup_isAllowed_other cfg st1 identifier now hki,
          alookup_isAllowed_other cfg st2 identifier now hki]
        exact h k hk

/-- C8: for every identifier `a` and every call sequence, the results of all
calls with identifiers other than `a` are the same whether or not the calls
with identifier `a` are present: dropping `a`'s calls from the trace yields
exactly the non-`a` portion of the original results. -/
theorem rl_identifier_noninterference (cfg : RateLimiterConfig) (a : String)
    (ops : List (String × Int)) :
    runTrace cfg [] (ops.filter fun p => ¬(p.1 = a)) =
      (runTrace cfg [] ops).filter fun p => ¬(p.1 = a) :=
  runTrace_erase cfg a ops [] [] (fun _ _ => rfl)

/-! ### Claim C4: set/get round-trip on an enabled cache -/

/-- C4: on an enabled cache with non-negative TTL, `set(k, v)` at time `t1`
followed by `get(k)` at any time `t2` within the TTL (`t2 ≤ t1 + ttlMs`)
returns `v`. -/
theorem cache_set_get_roundtrip {V : Type} (cfg : CacheConfig) (st : CacheState V)
    (key : String) (v : V) (t1 t2 : Int) (hen : cfg.enabled = true)
    (_httl : 0 ≤ cfg.ttlMs) (ht : t2 ≤ t1 + cfg.ttlMs) :
    (CacheService.get cfg (CacheService.set cfg st key v t1) key t2).1 = some v := by
  have hnexp : ¬(t1 + cfg.ttlMs < t2) := not_lt.mpr ht
  by_cases hp : cfg.persistenceEnabled = true <;>
    simp [CacheService.set, CacheService.get, hen, hp, isEntryExpired, hnexp]

/-- Witness for C4: `ttlMs = 86400000`, set at time 0, get at time 0. -/
theorem cache_set_get_roundtrip_witness :
    (CacheService.get (⟨86400000, true, false⟩ : CacheConfig)
        (CacheService.set ⟨86400000, true, false⟩ (⟨[], []⟩ : CacheState Nat) "quote:IBM" 7 0)
        "quote:IBM" 0).1 = some 7 :=
  cache_set_get_roundtrip ⟨86400000, true, false⟩ ⟨[], []⟩ "quote:IBM" 7 0 0
    rfl (by decide) (by decide)

/-! ### Claim C6: a disabled cache does nothing -/

/-- C6: when `enabled = false`, whatever the prior state: `set` leaves the
state (memory and disk) unchanged, `get` returns `null` without touching the
state, and `has` returns `false` without touching the state. -/
theorem cache_disabled_noop {V : Type} (cfg : CacheConfig) (st : CacheState V)
    (key : String) (v : V) (now : Int) (hdis : cfg.enabled = false) :
    CacheService.set cfg st key v now = st ∧
    (CacheService.get cfg st key now).1 = none ∧
    (CacheService.get cfg st key now).2 = st ∧
    (CacheService.has cfg st key now).1 = false ∧
    (CacheService.has cfg st key now).2 = st := by
  simp [CacheService.set, CacheService.get, CacheService.has, hdis]

/-- Witness for C6 on a non-trivial prior state. -/
theorem cache_disabled_noop_witness :
    CacheService.set (⟨1000, false, true⟩ : CacheConfig)
        (⟨[("k", ⟨3, 0⟩)], [("k", ⟨3, 0⟩)]⟩ : CacheState Nat) "k" 9 5 =
      ⟨[("k", ⟨3, 0⟩)], [("k", ⟨3, 0⟩)]⟩ ∧
    (CacheService.get (⟨1000, false, true⟩ : CacheConfig)
        (⟨[("k", ⟨3, 0⟩)], [("k", ⟨3, 0⟩)]⟩ : CacheState Nat) "k" 5).1 = none ∧
    (CacheService.get (⟨1000, false, true⟩ : CacheConfig)
        (⟨[("k", ⟨3, 0⟩)], [("k", ⟨3, 0⟩)]⟩ : CacheState Nat) "k" 5).2 =
      ⟨[("k", ⟨3, 0⟩)], [("k", ⟨3, 0⟩)]⟩ ∧
    (CacheService.has (⟨1000, false, true⟩ : CacheConfig)
        (⟨[("k", ⟨3, 0⟩)], [("k", ⟨3, 0⟩)]⟩ : CacheState Nat) "k" 5).1 = false ∧
    (CacheService.has (⟨1000, false, true⟩ : CacheConfig)
        (⟨[("k", ⟨3, 0⟩)], [("k", ⟨3, 0⟩)]⟩ : CacheState Nat) "k" 5).2 =
      ⟨[("k", ⟨3, 0⟩)], [("k", ⟨3, 0⟩)]⟩ :=
  cache_disabled_noop ⟨1000, false, true⟩ ⟨[("k", ⟨3, 0⟩)], [("k", ⟨3, 0⟩)]⟩ "k" 9 5 rfl

/-! ### Claim C5: get misses exactly on disabled/absent/expired, and expired entries are purged -/

/-- C5: `get` returns `null` exactly when the cache is disabled, the key is
absent (from memory and, with persistence on, disk), or the consulted entry is
expired; a value is only ever returned from a non-expired entry, `has` only
reports non-expired entries, and a `get` that encounters an expired entry
removes the key from memory and, with persistence on, from disk. -/
theorem cache_get_spec {V : Type} (cfg : CacheConfig) (st : CacheState V) (key : String)
    (now : Int) :
    ((CacheService.get cfg st key now).1 = none ↔
      cfg.enabled = false ∨ readEntry cfg st key = none ∨
        (∃ e, readEntry cfg st key = some e ∧ isEntryExpired cfg now e = true)) ∧
    (∀ v, (CacheService.get cfg st key now).1 = some v →
      ∃ e, readEntry cfg st key = some e ∧ isEntryExpired cfg now e = false ∧ e.data = v) ∧
    ((CacheService.has cfg st key now).1 = true →
      ∃ e, readEntry cfg st key = some e ∧ isEntryExpired cfg now e = false) ∧
    (∀ e, cfg.enabled = true → readEntry cfg st key = some e →
      isEntryExpired cfg now e = true →
      alookup key (CacheService.get cfg st key now).2.cache = none ∧
      (cfg.persistenceEnabled = true →
        alookup (sanitizeKey key) (CacheService.get cfg st key now).2.disk = none)) := by
  by_cases hen : cfg.enabled = true
  · cases hmem : alookup key st.cache with
    | some e =>
      cases hexp : isEntryExpired cfg now e with
      | true =>
        refine ⟨?_, ?_, ?_, ?_⟩
        · simp only [CacheService.get, readEntry, hen, hmem, hexp, if_true]
          simp [hexp]
        · intro v hv
          simp [CacheService.get, hen, hmem, hexp] at hv
        · intro hhas
          simp [CacheService.has, hen, hmem, hexp] at hhas
        · intro e' _ hre hexp'
          refine ⟨?_, fun hp => ?_⟩ <;>
            by_cases hp' : cfg.persistenceEnabled = true <;>
              simp_all [CacheService.get, hen, hmem, hexp, deleteKey, deleteDiskEntry,
                alookup_aerase]
      | false =>
        refine ⟨?_, ?_, ?_, ?_⟩
        · simp [CacheService.get, readEntry, hen, hmem, hexp]
        · intro v hv
          refine ⟨e, by simp [readEntry, hmem], hexp, ?_⟩
          simpa [CacheService.get, hen, hmem, hexp] using hv
        · intro _
          exact ⟨e, by simp [readEntry, hmem], hexp⟩
        · intro e' _ hre hexp'
          rw [readEntry, hmem] at hre
          cases hre
          rw [hexp] at hexp'
          cases hexp'
    | none =>
      by_cases hp : cfg.persistenceEnabled = true
      · cases hdisk : alookup (sanitizeKey key) st.disk with
        | some e =>
          cases hexp : isEntryExpired cfg now e with
          | true =>
            refine ⟨?_, ?_, ?_, ?_⟩
            · simp only [CacheService.get, readEntry, loadFromDisk, hen, hmem, hexp,
                hdisk, hp, if_true]
              simp [hexp]
            · intro v hv
              simp [CacheService.get, loadFromDisk, hen, hmem, hexp, hdisk, hp] at hv
            · intro hhas
              simp [CacheService.has, loadFromDisk, hen, hmem, hexp, hdisk, hp] at hhas
            · intro e' _ hre hexp'
              refine ⟨?_, fun _ => ?_⟩
              · simp [CacheService.get, loadFromDisk, hen, hmem, hexp, hdisk, hp]
              · simp [CacheService.get, loadFromDisk, hen, hmem, hexp, hdisk, hp,
                  alookup_aerase]
          | false =>
            refine ⟨?_, ?_, ?_, ?_⟩
            · simp [CacheService.get, readEntry, loadFromDisk, hen, hmem, hexp, hdisk, hp]
            · intro v hv
              refine ⟨e, by simp [readEntry, hmem, hp, hdisk], hexp, ?_⟩
              simpa [CacheService.get, loadFromDisk, hen, hmem, hexp, hdisk, hp] using hv
            · intro _
              exact ⟨e, by simp [readEntry, hmem, hp, hdisk], hexp⟩
            · intro e' _ hre hexp'
              rw [readEntry, hmem] at hre
              rw [if_pos hp, hdisk] at hre
              cases hre
              rw [hexp] at hexp'
              cases hexp'
        | none =>
          refine ⟨?_, ?_, ?_, ?_⟩
          · simp [CacheService.get, readEntry, loadFromDisk, hen, hmem, hdisk, hp]
          · intro v hv
            simp [CacheService.get, loadFromDisk, hen, hmem, hdisk, hp] at hv
          · intro hhas
            simp [CacheService.has, loadFromDisk, hen, hmem, hdisk, hp] at hhas
          · intro e' _ hre _
            rw [readEntry, hmem, if_pos hp, hdisk] at hre
            cases hre
      · have hp' : cfg.persistenceEnabled = false := by
          cases hb : cfg.persistenceEnabled
          · rfl
          · exact absurd hb hp
        refine ⟨?_, ?_, ?_, ?_⟩
        · simp [CacheService.get, readEntry, loadFromDisk, hen, hmem, hp']
        · intro v hv
          simp [CacheService.get, loadFromDisk, hen, hmem, hp'] at hv
        · intro hhas
          simp [CacheService.has, loadFromDisk, hen, hmem, hp'] at hhas
        · intro e' _ hre _
          rw [readEntry, hmem, if_neg (by simp [hp'])] at hre
          cases hre
  · have hen' : cfg.enabled = false := by
      cases hb : cfg.enabled
      · rfl
      · exact absurd hb hen
    refine ⟨?_, ?_, ?_, ?_⟩
    · simp [CacheService.get, hen']
    · intro v hv
      simp [CacheService.get, hen'] at hv
    · intro hhas
      simp [CacheService.has, hen'] at hhas
    · intro e' hcontra _ _
      rw [hen'] at hcontra
      cases hcontra

/-- Witness for C5: a fresh in-memory entry is returned with its data, and a
`get` on an expired in-memory entry (TTL 1000 ms, written at 0, read at 5000)
leaves the key absent from memory. -/
theorem cache_get_spec_witness :
    (∃ e, readEntry (⟨1000, true, false⟩ : CacheConfig)
        (⟨[("k", ⟨7, 0⟩)], []⟩ : CacheState Nat) "k" = some e ∧
      isEntryExpired (⟨1000, true, false⟩ : CacheConfig) 500 e = false ∧ e.data = 7) ∧
    (alookup "k" (CacheService.get (⟨1000, true, false⟩ : CacheConfig)
        (⟨[("k", ⟨7, 0⟩)], []⟩ : CacheState Nat) "k" 5000).2.cache = none ∧
      (CacheConfig.persistenceEnabled ⟨1000, true, false⟩ = true →
        alookup (sanitizeKey "k") (CacheService.get (⟨1000, true, false⟩ : CacheConfig)
          (⟨[("k", ⟨7, 0⟩)], []⟩ : CacheState Nat) "k" 5000).2.disk = none)) :=
  ⟨(cache_get_spec ⟨1000, true, false⟩ ⟨[("k", ⟨7, 0⟩)], []⟩ "k" 500).2.1 7 rfl,
   (cache_get_spec ⟨1000, true, false⟩ ⟨[("k", ⟨7, 0⟩)], []⟩ "k" 5000).2.2.2
     ⟨7, 0⟩ rfl rfl rfl⟩

end StockQuotes
